import Mathlib

/-!
# TEXTE_MODULE (pcbnew/class_text_mod.cpp): footprint text items

A shallow embedding of the geometry and text-resolution code of
`TEXTE_MODULE`, followed by the properties established about it.

Conventions of the embedding.

* Coordinates (`wxPoint`, C++ `int`) are `Int`; the C++ code has no defined
  behaviour on signed overflow, so the arithmetic is the exact one.
* Angles are C++ `double` values holding tenths of a degree; they are `Int`
  here, and the additions and subtractions of the code are exact.
* `wxString` is `String`; a `wxString::const_iterator` is the list of the
  characters still to be read.
* The parent pointer `m_Parent` is an `Option MODULE`.
-/

namespace TextMod

/-! ## Data model -/

/-- The integer point of wxWidgets (`wxPoint`). -/
structure wxPoint where
  x : Int
  y : Int
deriving DecidableEq, Repr

/-- Sum of two points (`wxPoint::operator+`). -/
def wxPoint.add (a b : wxPoint) : wxPoint := ⟨a.x + b.x, a.y + b.y⟩

/-- Difference of two points (`wxPoint::operator-`). -/
def wxPoint.sub (a b : wxPoint) : wxPoint := ⟨a.x - b.x, a.y - b.y⟩

/-- The kind of a footprint text (`TEXTE_MODULE::TEXT_TYPE`). -/
inductive TEXT_TYPE where
  | TEXT_is_REFERENCE
  | TEXT_is_VALUE
  | TEXT_is_DIVERS
deriving DecidableEq, Repr

/-- Modelled from the spec: the layer identifiers (`PCB_LAYER_ID`), declared in a
header that is not among the sources.  The spec speaks of front and back
layers that `Flip` swaps; a layer is the front or the back member of a pair
(copper, silkscreen, ...), or a layer without a side (drawings, board edge). -/
inductive PCB_LAYER_ID where
  | front (pair : Nat)
  | back (pair : Nat)
  | unpaired (id : Nat)
deriving DecidableEq, Repr

/-- Modelled from the spec: the front silkscreen `F_SilkS`, the default layer of a
footprint text, a front layer of the layer model above. -/
def F_SilkS : PCB_LAYER_ID := .front 1

/-- Modelled from the spec: the back silkscreen `B_SilkS`, the back layer of the
same pair. -/
def B_SilkS : PCB_LAYER_ID := .back 1

/-- Modelled from the spec: `IsBackLayer`, not among the sources: whether the layer
is on the back side of the board. -/
def IsBackLayer : PCB_LAYER_ID → Bool
  | .back _ => true
  | _ => false

/-- Modelled from the spec: `FlipLayer`, not among the sources: "swaps front/back
layer"; a layer without a side is returned as it is. -/
def FlipLayer : PCB_LAYER_ID → PCB_LAYER_ID
  | .front p => .back p
  | .back p => .front p
  | .unpaired i => .unpaired i

/-- The parent footprint, as far as `TEXTE_MODULE` reads it: `GetPosition()`,
`GetOrientation()`, `GetReference()` and `GetValue()`. -/
structure MODULE where
  m_Pos : wxPoint
  m_Orient : Int
  m_Reference : String
  m_Value : String
deriving DecidableEq, Repr

/-- The state of a `TEXTE_MODULE`: its own members `m_Parent`, `m_Type`,
`m_Pos0`, the layer of `BOARD_ITEM`, and the members of `EDA_TEXT` that the
code under study reads or writes (text, position, angle, mirrored flag). -/
structure TEXTE_MODULE where
  m_Parent : Option MODULE
  m_Type : TEXT_TYPE
  m_Text : String
  m_Pos0 : wxPoint
  m_Layer : PCB_LAYER_ID
  pos : wxPoint
  angle : Int
  mirrored : Bool
deriving DecidableEq, Repr

/-! ## Helpers of other files -/

/-- Modelled from the spec: `NormalizeAngle360` (trigo.h is not among the sources).
The spec says that angle arithmetic "is modular in a representation covering
a full turn": whole turns of 3600 tenths of a degree are removed, towards
zero, so that the sign of the angle is kept. -/
def NormalizeAngle360 (aAngle : Int) : Int :=
  if 0 ≤ aAngle then aAngle % 3600 else -((-aAngle) % 3600)

/-- Modelled from the spec: `NORMALIZE_ANGLE_POS` (trigo.h is not among the
sources): the angle brought into the full turn from 0 (included) to 3600
(excluded). -/
def NORMALIZE_ANGLE_POS (angle : Int) : Int := angle % 3600

/-- The branch of `RotatePoint` that goes through `sin` and `cos` in double
precision and rounds the two products back to `int`.  Floating point is
outside the embedding: the branch is a parameter of the model, a function of
the two coordinates and of the angle already brought into 0 .. 3600. -/
abbrev TrigBranch := Int → Int → Int → wxPoint

/-- Modelled from the spec: `RotatePoint( int* pX, int* pY, double angle )`
(trigo.cpp is not among the sources), the `rotate` of the spec: the rotation
of an integer point about the origin by an angle in tenths of a degree, the
angle being first brought into one turn.  The rotations by a multiple of 90
degrees are exact exchanges of the coordinates, with the same orientation as
the floating-point branch (`x` becomes `y sin + x cos`, `y` becomes
`y cos - x sin`); every other angle goes through the floating-point branch
`trig`, "within floating/integer rounding tolerance". -/
def RotatePoint (trig : TrigBranch) (pt : wxPoint) (angle : Int) : wxPoint :=
  let angle := NORMALIZE_ANGLE_POS angle
  if angle = 0 then pt
  else if angle = 900 then ⟨pt.y, -pt.x⟩
  else if angle = 1800 then ⟨-pt.x, -pt.y⟩
  else if angle = 2700 then ⟨-pt.y, pt.x⟩
  else trig pt.x pt.y angle

/-- Modelled from the spec: `RotatePoint( wxPoint* point, const wxPoint& centre,
double angle )`: the rotation about `centre`, done on the offset from the
centre. -/
def RotatePointAround (trig : TrigBranch) (point centre : wxPoint) (angle : Int) : wxPoint :=
  (RotatePoint trig (point.sub centre) angle).add centre

/-- Modelled from the spec: the helper `::Mirror( aPoint, aMirrorRef )` (macros.h
is not among the sources): the coordinate reflected about the reference. -/
def Mirror (aPoint aMirrorRef : Int) : Int := -(aPoint - aMirrorRef) + aMirrorRef

namespace TEXTE_MODULE

/-! ## Accessors of `EDA_TEXT` and `BOARD_ITEM`

The accessors are declared in headers that are not among the sources; each
one reads or writes the member that its name says. -/

/-- Modelled from the spec: the accessor `EDA_TEXT::GetTextPos`: the global position. -/
def GetTextPos (t : TEXTE_MODULE) : wxPoint := t.pos

/-- Modelled from the spec: the setter `EDA_TEXT::SetTextPos` of the global position. -/
def SetTextPos (t : TEXTE_MODULE) (aPoint : wxPoint) : TEXTE_MODULE := { t with pos := aPoint }

/-- Modelled from the spec: the setter `EDA_TEXT::SetTextX` of the global x. -/
def SetTextX (t : TEXTE_MODULE) (aX : Int) : TEXTE_MODULE := { t with pos := ⟨aX, t.pos.y⟩ }

/-- Modelled from the spec: the setter `EDA_TEXT::SetTextY` of the global y. -/
def SetTextY (t : TEXTE_MODULE) (aY : Int) : TEXTE_MODULE := { t with pos := ⟨t.pos.x, aY⟩ }

/-- Modelled from the spec: the method `EDA_TEXT::Offset`: the global position
translated by a vector. -/
def Offset (t : TEXTE_MODULE) (aOffset : wxPoint) : TEXTE_MODULE :=
  { t with pos := t.pos.add aOffset }

/-- Modelled from the spec: the accessor `EDA_TEXT::GetTextAngle`: the own angle. -/
def GetTextAngle (t : TEXTE_MODULE) : Int := t.angle

/-- The setter `TEXTE_MODULE::SetTextAngle`: hands the normalized angle to
`EDA_TEXT::SetTextAngle`, which stores it. -/
def SetTextAngle (t : TEXTE_MODULE) (aAngle : Int) : TEXTE_MODULE :=
  { t with angle := NormalizeAngle360 aAngle }

/-- Modelled from the spec: the accessor `BOARD_ITEM::GetLayer`. -/
def GetLayer (t : TEXTE_MODULE) : PCB_LAYER_ID := t.m_Layer

/-- Modelled from the spec: the setter `BOARD_ITEM::SetLayer`. -/
def SetLayer (t : TEXTE_MODULE) (aLayer : PCB_LAYER_ID) : TEXTE_MODULE :=
  { t with m_Layer := aLayer }

/-- Modelled from the spec: the setter `EDA_TEXT::SetMirrored` of the mirrored flag. -/
def SetMirrored (t : TEXTE_MODULE) (isMirrored : Bool) : TEXTE_MODULE :=
  { t with mirrored := isMirrored }

/-! ## Coordinate synchronisation -/

/-- The method `TEXTE_MODULE::SetDrawCoord`: the board position from the
position relative to the footprint. -/
def SetDrawCoord (trig : TrigBranch) (t : TEXTE_MODULE) : TEXTE_MODULE :=
  let t := t.SetTextPos t.m_Pos0
  match t.m_Parent with
  | some module =>
    let angle := module.m_Orient
    let pt := t.GetTextPos
    let pt := RotatePoint trig pt angle
    let t := t.SetTextPos pt
    t.Offset module.m_Pos
  | none => t

/-- The method `TEXTE_MODULE::SetLocalCoord`: the position relative to the
footprint from the board position. -/
def SetLocalCoord (trig : TrigBranch) (t : TEXTE_MODULE) : TEXTE_MODULE :=
  match t.m_Parent with
  | some module =>
    let m_Pos0 := t.GetTextPos.sub module.m_Pos
    let angle := module.m_Orient
    { t with m_Pos0 := RotatePoint trig m_Pos0 (-angle) }
  | none => { t with m_Pos0 := t.GetTextPos }

/-! ## Edits -/

/-- The method `TEXTE_MODULE::Rotate`. -/
def Rotate (trig : TrigBranch) (t : TEXTE_MODULE) (aRotCentre : wxPoint) (aAngle : Int) :
    TEXTE_MODULE :=
  let pt := t.GetTextPos
  let pt := RotatePointAround trig pt aRotCentre aAngle
  let t := t.SetTextPos pt
  let t := t.SetTextAngle (t.GetTextAngle + aAngle)
  t.SetLocalCoord trig

/-- The method `TEXTE_MODULE::Flip`. -/
def Flip (trig : TrigBranch) (t : TEXTE_MODULE) (aCentre : wxPoint) : TEXTE_MODULE :=
  let t := t.SetTextY (TextMod.Mirror t.GetTextPos.y aCentre.y)
  let t := t.SetTextAngle (-t.GetTextAngle)
  let t := t.SetLayer (FlipLayer t.GetLayer)
  let t := t.SetMirrored (IsBackLayer t.GetLayer)
  t.SetLocalCoord trig

/-- The method `TEXTE_MODULE::Mirror`. -/
def Mirror (trig : TrigBranch) (t : TEXTE_MODULE) (aCentre : wxPoint)
    (aMirrorAroundXAxis : Bool) : TEXTE_MODULE :=
  let t := if aMirrorAroundXAxis then t.SetTextY (TextMod.Mirror t.GetTextPos.y aCentre.y)
    else t.SetTextX (TextMod.Mirror t.GetTextPos.x aCentre.x)
  t.SetLocalCoord trig

/-- The method `TEXTE_MODULE::Move`. -/
def Move (trig : TrigBranch) (t : TEXTE_MODULE) (aMoveVector : wxPoint) : TEXTE_MODULE :=
  let t := t.Offset aMoveVector
  t.SetLocalCoord trig

/-! ## Draw rotation and hit test -/

/-- First loop of `GetDrawRotation`: `while( rotation > 900 ) rotation -= 1800;` -/
def GetDrawRotation.whileAbove (rotation : Int) : Int :=
  if h : rotation > 900 then GetDrawRotation.whileAbove (rotation - 1800) else rotation
termination_by (rotation - 900).toNat
decreasing_by omega

/-- Second loop of `GetDrawRotation`: `while( rotation < -900 ) rotation += 1800;` -/
def GetDrawRotation.whileBelow (rotation : Int) : Int :=
  if h : rotation < -900 then GetDrawRotation.whileBelow (rotation + 1800) else rotation
termination_by (-900 - rotation).toNat
decreasing_by omega

/-- The method `TEXTE_MODULE::GetDrawRotation`: the own angle, plus the
orientation of the parent when there is one, brought back between -90 and 90
degrees by half turns. -/
def GetDrawRotation (t : TEXTE_MODULE) : Int :=
  let rotation := t.GetTextAngle
  let rotation := match t.m_Parent with
    | some module => rotation + module.m_Orient
    | none => rotation
  let rotation := GetDrawRotation.whileAbove rotation
  let rotation := GetDrawRotation.whileBelow rotation
  rotation

/-- The method `TEXTE_MODULE::TextHitTest( const wxPoint&, int )`.  The box of
the text (`EDA_TEXT::GetTextBox`) and the operations `Inflate` and `Contains`
of `EDA_RECT` live in other files and are parameters. -/
def TextHitTest {EDA_RECT : Type} (trig : TrigBranch)
    (GetTextBox : TEXTE_MODULE → Int → EDA_RECT) (Inflate : EDA_RECT → Int → EDA_RECT)
    (Contains : EDA_RECT → wxPoint → Bool)
    (t : TEXTE_MODULE) (aPoint : wxPoint) (aAccuracy : Int) : Bool :=
  let rect := GetTextBox t (-1)
  let location := aPoint
  let rect := Inflate rect aAccuracy
  let location := RotatePointAround trig location t.GetTextPos (-t.GetDrawRotation)
  Contains rect location

/-! ## Shown text -/

/-- The body of the `for` loop of `GetShownText`: `it` is what the iterator has
still to read, `newbuf` the string built so far. -/
def GetShownText.loop (module : Option MODULE) : List Char → String → String
  | [], newbuf => newbuf
  | c :: it, newbuf =>
    if c ≠ '%' then GetShownText.loop module it (newbuf.push c)
    else
      match it with
      | [] => newbuf
      | d :: it =>
        if d = '%' then GetShownText.loop module it (newbuf.push '%')
        else if d = 'R' then
          match module with
          | some m => GetShownText.loop module it (newbuf ++ m.m_Reference)
          | none => GetShownText.loop module it newbuf
        else if d = 'V' then
          match module with
          | some m => GetShownText.loop module it (newbuf ++ m.m_Value)
          | none => GetShownText.loop module it newbuf
        else GetShownText.loop module it (newbuf.push '?')

/-- The method `TEXTE_MODULE::GetShownText`. -/
def GetShownText (t : TEXTE_MODULE) : String :=
  if t.m_Type ≠ .TEXT_is_DIVERS ∨ '%' ∉ t.m_Text.toList then t.m_Text
  else GetShownText.loop t.m_Parent t.m_Text.toList ""

end TEXTE_MODULE

/-! ## The expansion of the text, as the specification words it -/

/-- What a character stands for when it follows a percent sign: a percent sign
for itself, the reference of the parent for `R`, its value for `V` (nothing
for either without a parent), a question mark for anything else. -/
def expandEscape (module : Option MODULE) (c : Char) : List Char :=
  if c = '%' then ['%']
  else if c = 'R' then (match module with | some m => m.m_Reference.toList | none => [])
  else if c = 'V' then (match module with | some m => m.m_Value.toList | none => [])
  else ['?']

/-- One pass over the characters, left to right: a character other than the
percent sign is copied; a percent sign takes the next character with it and
leaves what that character stands for; a percent sign at the very end leaves
nothing.  What has been inserted is not read again. -/
def expandPercent (module : Option MODULE) : List Char → List Char
  | [] => []
  | c :: rest =>
    if c = '%' then
      match rest with
      | [] => []
      | d :: rest => expandEscape module d ++ expandPercent module rest
    else c :: expandPercent module rest

/-! ## Notions used to state the properties -/

/-- The own angle of the text plus the orientation of its parent, when it has
one: the value `GetDrawRotation` starts from. -/
def ownPlusParent (t : TEXTE_MODULE) : Int :=
  match t.m_Parent with
  | some module => t.angle + module.m_Orient
  | none => t.angle

/-- The consistency of the two positions as the specification states it: the
global position is the local position rotated by the orientation of the
parent, plus the position of the parent; without a parent the two positions
are equal. -/
def Consistent (trig : TrigBranch) (t : TEXTE_MODULE) : Prop :=
  match t.m_Parent with
  | some module => t.pos = (RotatePoint trig t.m_Pos0 module.m_Orient).add module.m_Pos
  | none => t.pos = t.m_Pos0

instance (trig : TrigBranch) (t : TEXTE_MODULE) : Decidable (Consistent trig t) := by
  unfold Consistent
  cases t.m_Parent <;> infer_instance

/-- The same consistency up to one unit on each coordinate. -/
def NearlyConsistent (trig : TrigBranch) (t : TEXTE_MODULE) : Prop :=
  match t.m_Parent with
  | some module =>
    |t.pos.x - ((RotatePoint trig t.m_Pos0 module.m_Orient).add module.m_Pos).x| ≤ 1 ∧
    |t.pos.y - ((RotatePoint trig t.m_Pos0 module.m_Orient).add module.m_Pos).y| ≤ 1
  | none => t.pos = t.m_Pos0

/-- The local position is the one `SetLocalCoord` computes from the global
position: the offset from the parent rotated by the opposite of its
orientation, or the global position itself without a parent. -/
def LocalSynced (trig : TrigBranch) (t : TEXTE_MODULE) : Prop :=
  match t.m_Parent with
  | some module => t.m_Pos0 = RotatePoint trig (t.pos.sub module.m_Pos) (-module.m_Orient)
  | none => t.m_Pos0 = t.pos

/-- Accuracy of the floating-point branch of `RotatePoint`: each coordinate it
returns is within 9/16 of a unit of the exact rotation, `y sin a + x cos a`
and `y cos a - x sin a` for the angle `a` in tenths of a degree.  Rounding to
the nearest integer accounts for 1/2; the remaining 1/16 is room for the
error of the double-precision products. -/
def TrigAccurate (trig : TrigBranch) : Prop :=
  ∀ x y a : Int,
    |((trig x y a).x : ℝ) -
      (y * Real.sin (a * Real.pi / 1800) + x * Real.cos (a * Real.pi / 1800))| ≤ 9 / 16 ∧
    |((trig x y a).y : ℝ) -
      (y * Real.cos (a * Real.pi / 1800) - x * Real.sin (a * Real.pi / 1800))| ≤ 9 / 16

/-- What an edit leaves: the local position is synchronised; the two positions
are consistent when there is no parent or the parent is turned by quarter
turns only; and they are consistent up to one unit when the floating-point
branch of the rotation is accurate. -/
def Resynced (trig : TrigBranch) (t : TEXTE_MODULE) : Prop :=
  LocalSynced trig t ∧
  ((∀ module, t.m_Parent = some module → module.m_Orient % 900 = 0) → Consistent trig t) ∧
  (TrigAccurate trig → NearlyConsistent trig t)

/-- A sample of the floating-point branch at 45, 135, 225 and 315 degrees: sine
and cosine are 0.70710678 up to the sign, and each product sum is rounded to
the nearest integer.  The sample is meant for these four angles only. -/
def trigSample45 : TrigBranch := fun x y a =>
  let s : Int := if a = 450 ∨ a = 1350 then 70710678 else -70710678
  let c : Int := if a = 450 ∨ a = 3150 then 70710678 else -70710678
  ⟨(2 * (y * s + x * c) + 100000000) / 200000000,
   (2 * (y * c - x * s) + 100000000) / 200000000⟩

/-! ## Properties of the draw rotation -/

/-- The first loop does not run from a value that is at most 900. -/
theorem whileAbove_of_le (r : Int) (h : r ≤ 900) :
    TEXTE_MODULE.GetDrawRotation.whileAbove r = r := by
  rw [TEXTE_MODULE.GetDrawRotation.whileAbove]
  simp only [gt_iff_lt, dite_eq_ite]
  rw [if_neg (by omega)]

/-- The first loop takes a half turn away from a value above 900 and goes on. -/
theorem whileAbove_of_gt (r : Int) (h : 900 < r) :
    TEXTE_MODULE.GetDrawRotation.whileAbove r =
      TEXTE_MODULE.GetDrawRotation.whileAbove (r - 1800) := by
  rw [TEXTE_MODULE.GetDrawRotation.whileAbove]
  simp only [gt_iff_lt, dite_eq_ite]
  rw [if_pos h]

/-- The second loop does not run from a value that is at least -900. -/
theorem whileBelow_of_ge (r : Int) (h : -900 ≤ r) :
    TEXTE_MODULE.GetDrawRotation.whileBelow r = r := by
  rw [TEXTE_MODULE.GetDrawRotation.whileBelow]
  simp only [dite_eq_ite]
  rw [if_neg (by omega)]

/-- The second loop adds a half turn to a value below -900 and goes on. -/
theorem whileBelow_of_lt (r : Int) (h : r < -900) :
    TEXTE_MODULE.GetDrawRotation.whileBelow r =
      TEXTE_MODULE.GetDrawRotation.whileBelow (r + 1800) := by
  rw [TEXTE_MODULE.GetDrawRotation.whileBelow]
  simp only [dite_eq_ite]
  rw [if_pos h]

/-- What the first loop leaves: a value at most 900, reached by removing half
turns, above -900 as soon as one half turn was removed. -/
theorem whileAbove_spec (n : Nat) : ∀ r : Int, (r - 900).toNat ≤ n →
    TEXTE_MODULE.GetDrawRotation.whileAbove r ≤ 900 ∧
    (900 < r → -900 < TEXTE_MODULE.GetDrawRotation.whileAbove r) ∧
    ∃ k : Int, 0 ≤ k ∧ TEXTE_MODULE.GetDrawRotation.whileAbove r = r - 1800 * k := by
  induction n with
  | zero =>
    intro r h
    have hr : r ≤ 900 := by omega
    rw [whileAbove_of_le r hr]
    exact ⟨hr, fun h' => by omega, 0, le_refl _, by omega⟩
  | succ n ih =>
    intro r h
    by_cases hr : r ≤ 900
    · rw [whileAbove_of_le r hr]
      exact ⟨hr, fun h' => by omega, 0, le_refl _, by omega⟩
    · have hgt : 900 < r := by omega
      rw [whileAbove_of_gt r hgt]
      obtain ⟨h1, h2, k, hk, h3⟩ := ih (r - 1800) (by omega)
      refine ⟨h1, fun _ => ?_, k + 1, by omega, by omega⟩
      by_cases h4 : 900 < r - 1800
      · exact h2 h4
      · rw [whileAbove_of_le _ (by omega)]
        omega

/-- What the second loop leaves: a value at least -900, reached by adding half
turns, below 900 as soon as one half turn was added. -/
theorem whileBelow_spec (n : Nat) : ∀ r : Int, (-900 - r).toNat ≤ n →
    -900 ≤ TEXTE_MODULE.GetDrawRotation.whileBelow r ∧
    (r < -900 → TEXTE_MODULE.GetDrawRotation.whileBelow r < 900) ∧
    ∃ k : Int, 0 ≤ k ∧ TEXTE_MODULE.GetDrawRotation.whileBelow r = r + 1800 * k := by
  induction n with
  | zero =>
    intro r h
    have hr : -900 ≤ r := by omega
    rw [whileBelow_of_ge r hr]
    exact ⟨hr, fun h' => by omega, 0, le_refl _, by omega⟩
  | succ n ih =>
    intro r h
    by_cases hr : -900 ≤ r
    · rw [whileBelow_of_ge r hr]
      exact ⟨hr, fun h' => by omega, 0, le_refl _, by omega⟩
    · have hlt : r < -900 := by omega
      rw [whileBelow_of_lt r hlt]
      obtain ⟨h1, h2, k, hk, h3⟩ := ih (r + 1800) (by omega)
      refine ⟨h1, fun _ => ?_, k + 1, by omega, by omega⟩
      by_cases h4 : r + 1800 < -900
      · exact h2 h4
      · rw [whileBelow_of_ge _ (by omega)]
        omega

/-- The draw rotation is the two loops run on the own angle plus the
orientation of the parent. -/
theorem GetDrawRotation_eq (t : TEXTE_MODULE) :
    t.GetDrawRotation =
      TEXTE_MODULE.GetDrawRotation.whileBelow
        (TEXTE_MODULE.GetDrawRotation.whileAbove (ownPlusParent t)) := by
  unfold TEXTE_MODULE.GetDrawRotation ownPlusParent TEXTE_MODULE.GetTextAngle
  cases t.m_Parent <;> rfl

/-- The range and the congruence of the two loops together. -/
theorem loops_spec (s : Int) :
    -900 ≤ TEXTE_MODULE.GetDrawRotation.whileBelow (TEXTE_MODULE.GetDrawRotation.whileAbove s) ∧
    TEXTE_MODULE.GetDrawRotation.whileBelow (TEXTE_MODULE.GetDrawRotation.whileAbove s) ≤ 900 ∧
    (-900 < TEXTE_MODULE.GetDrawRotation.whileBelow (TEXTE_MODULE.GetDrawRotation.whileAbove s) ∨
      s ≤ -900) ∧
    ∃ k : Int, TEXTE_MODULE.GetDrawRotation.whileBelow
      (TEXTE_MODULE.GetDrawRotation.whileAbove s) = s + 1800 * k := by
  obtain ⟨a1, a2, ka, hka, a3⟩ := whileAbove_spec _ s (le_refl _)
  obtain ⟨b1, b2, kb, hkb, b3⟩ :=
    whileBelow_spec _ (TEXTE_MODULE.GetDrawRotation.whileAbove s) (le_refl _)
  by_cases hs : 900 < s
  · have := a2 hs
    rw [whileBelow_of_ge _ (by omega)]
    exact ⟨by omega, a1, Or.inl this, -ka, by omega⟩
  · rw [whileAbove_of_le s (by omega)] at b1 b2 b3 ⊢
    by_cases hs2 : s < -900
    · have := b2 hs2
      exact ⟨b1, by omega, Or.inr (by omega), kb, b3⟩
    · rw [whileBelow_of_ge s (by omega)]
      refine ⟨by omega, by omega, ?_, 0, by omega⟩
      by_cases h9 : s = -900
      · exact Or.inr (by omega)
      · exact Or.inl (by omega)

/-- C3 (as amended): for every own angle and every parent orientation, and
without a parent too, `GetDrawRotation` returns a value of the closed interval
from -900 to 900 that differs from the own angle plus the parent orientation
by a whole number of half turns (1800); the bound -900 is reached only from
a sum that is at most -900. -/
theorem GetDrawRotation_closed_range (t : TEXTE_MODULE) :
    -900 ≤ t.GetDrawRotation ∧ t.GetDrawRotation ≤ 900 ∧
    (-900 < t.GetDrawRotation ∨ ownPlusParent t ≤ -900) ∧
    ∃ k : Int, t.GetDrawRotation = ownPlusParent t + 1800 * k := by
  rw [GetDrawRotation_eq]
  exact loops_spec (ownPlusParent t)

/-- C3 (counterexample): a text without a parent whose own angle is -900 has
the draw rotation -900, which is not inside the half-open interval from -900
(excluded) to 900. -/
theorem GetDrawRotation_half_open_counterexample :
    TEXTE_MODULE.GetDrawRotation
        { m_Parent := none, m_Type := .TEXT_is_DIVERS, m_Text := "", m_Pos0 := ⟨0, 0⟩,
          m_Layer := F_SilkS, pos := ⟨0, 0⟩, angle := -900, mirrored := false } = -900 ∧
    ¬ (-900 < TEXTE_MODULE.GetDrawRotation
        { m_Parent := none, m_Type := .TEXT_is_DIVERS, m_Text := "", m_Pos0 := ⟨0, 0⟩,
          m_Layer := F_SilkS, pos := ⟨0, 0⟩, angle := -900, mirrored := false } ∧
      TEXTE_MODULE.GetDrawRotation
        { m_Parent := none, m_Type := .TEXT_is_DIVERS, m_Text := "", m_Pos0 := ⟨0, 0⟩,
          m_Layer := F_SilkS, pos := ⟨0, 0⟩, angle := -900, mirrored := false } ≤ 900) := by
  simp [TEXTE_MODULE.GetDrawRotation, TEXTE_MODULE.GetDrawRotation.whileAbove,
    TEXTE_MODULE.GetDrawRotation.whileBelow, TEXTE_MODULE.GetTextAngle]

/-- The hit test rotates the query point about the text position by the
negative of the draw rotation and asks the inflated box of the text. -/
theorem TextHitTest_eq {EDA_RECT : Type} (trig : TrigBranch)
    (GetTextBox : TEXTE_MODULE → Int → EDA_RECT) (Inflate : EDA_RECT → Int → EDA_RECT)
    (Contains : EDA_RECT → wxPoint → Bool) (t : TEXTE_MODULE) (aPoint : wxPoint)
    (aAccuracy : Int) :
    t.TextHitTest trig GetTextBox Inflate Contains aPoint aAccuracy =
      Contains (Inflate (GetTextBox t (-1)) aAccuracy)
        (RotatePointAround trig aPoint t.pos (-t.GetDrawRotation)) := rfl

/-- C8 (as amended): an angle of 270 degrees comes out as +90 degrees: when the
own angle plus the parent orientation is 2700, `GetDrawRotation` returns 900,
and `TextHitTest` rotates the query point about the text position by -900,
the negative of that value, before it asks the inflated box of the unrotated
text whether it contains the point. -/
theorem GetDrawRotation_2700 {EDA_RECT : Type} (trig : TrigBranch)
    (GetTextBox : TEXTE_MODULE → Int → EDA_RECT) (Inflate : EDA_RECT → Int → EDA_RECT)
    (Contains : EDA_RECT → wxPoint → Bool) (t : TEXTE_MODULE) (aPoint : wxPoint)
    (aAccuracy : Int) (h : ownPlusParent t = 2700) :
    t.GetDrawRotation = 900 ∧
    t.TextHitTest trig GetTextBox Inflate Contains aPoint aAccuracy =
      Contains (Inflate (GetTextBox t (-1)) aAccuracy)
        (RotatePointAround trig aPoint t.pos (-900)) := by
  have hr : t.GetDrawRotation = 900 := by
    rw [GetDrawRotation_eq, h, whileAbove_of_gt 2700 (by decide),
      whileAbove_of_le _ (by decide), whileBelow_of_ge _ (by decide)]
    rfl
  exact ⟨hr, by rw [TextHitTest_eq, hr]⟩

/-- C8 (witness): a text of own angle 900 on a footprint turned by 1800. -/
theorem GetDrawRotation_2700_witness :
    ownPlusParent
        { m_Parent := some ⟨⟨10, 20⟩, 1800, "R1", "10k"⟩, m_Type := .TEXT_is_VALUE,
          m_Text := "10k", m_Pos0 := ⟨0, 0⟩, m_Layer := F_SilkS, pos := ⟨10, 20⟩,
          angle := 900, mirrored := false } = 2700 ∧
    (TEXTE_MODULE.GetDrawRotation
        { m_Parent := some ⟨⟨10, 20⟩, 1800, "R1", "10k"⟩, m_Type := .TEXT_is_VALUE,
          m_Text := "10k", m_Pos0 := ⟨0, 0⟩, m_Layer := F_SilkS, pos := ⟨10, 20⟩,
          angle := 900, mirrored := false } = 900 ∧
      TEXTE_MODULE.TextHitTest (fun _ _ _ => ⟨0, 0⟩) (fun _ _ => ()) (fun r _ => r)
        (fun _ p => decide (p = ⟨8, 23⟩))
        { m_Parent := some ⟨⟨10, 20⟩, 1800, "R1", "10k"⟩, m_Type := .TEXT_is_VALUE,
          m_Text := "10k", m_Pos0 := ⟨0, 0⟩, m_Layer := F_SilkS, pos := ⟨10, 20⟩,
          angle := 900, mirrored := false } ⟨13, 22⟩ 5 =
        decide (RotatePointAround (fun _ _ _ => ⟨0, 0⟩) ⟨13, 22⟩ ⟨10, 20⟩ (-900) = ⟨8, 23⟩)) :=
  ⟨by decide, GetDrawRotation_2700 (fun _ _ _ => ⟨0, 0⟩) (fun _ _ => ()) (fun r _ => r)
    (fun _ p => decide (p = ⟨8, 23⟩)) _ ⟨13, 22⟩ 5 (by decide)⟩

/-- C8 (counterexample): a text without a parent whose own angle is 2700 has the
draw rotation 900, not -900. -/
theorem GetDrawRotation_2700_counterexample :
    TEXTE_MODULE.GetDrawRotation
        { m_Parent := none, m_Type := .TEXT_is_DIVERS, m_Text := "", m_Pos0 := ⟨0, 0⟩,
          m_Layer := F_SilkS, pos := ⟨0, 0⟩, angle := 2700, mirrored := false } = 900 ∧
    TEXTE_MODULE.GetDrawRotation
        { m_Parent := none, m_Type := .TEXT_is_DIVERS, m_Text := "", m_Pos0 := ⟨0, 0⟩,
          m_Layer := F_SilkS, pos := ⟨0, 0⟩, angle := 2700, mirrored := false } ≠ -900 := by
  simp [TEXTE_MODULE.GetDrawRotation, TEXTE_MODULE.GetDrawRotation.whileAbove,
    TEXTE_MODULE.GetDrawRotation.whileBelow, TEXTE_MODULE.GetTextAngle]

/-- C9: the normalisation is idempotent: a text without a parent, or on a parent
of orientation 0, whose own angle is a value returned by `GetDrawRotation` has
that value as its draw rotation; the two loops leave a returned value as it
is. -/
theorem GetDrawRotation_idempotent (t u : TEXTE_MODULE)
    (hangle : u.angle = t.GetDrawRotation)
    (hparent : u.m_Parent = none ∨ ∃ m, u.m_Parent = some m ∧ m.m_Orient = 0) :
    u.GetDrawRotation = t.GetDrawRotation ∧
    TEXTE_MODULE.GetDrawRotation.whileBelow
      (TEXTE_MODULE.GetDrawRotation.whileAbove t.GetDrawRotation) = t.GetDrawRotation := by
  have hr : -900 ≤ t.GetDrawRotation ∧ t.GetDrawRotation ≤ 900 := by
    rw [GetDrawRotation_eq]
    exact ⟨(loops_spec _).1, (loops_spec _).2.1⟩
  have hloops : TEXTE_MODULE.GetDrawRotation.whileBelow
      (TEXTE_MODULE.GetDrawRotation.whileAbove t.GetDrawRotation) = t.GetDrawRotation := by
    rw [whileAbove_of_le _ hr.2, whileBelow_of_ge _ hr.1]
  refine ⟨?_, hloops⟩
  have hsum : ownPlusParent u = t.GetDrawRotation := by
    unfold ownPlusParent
    rcases hparent with h | ⟨m, h, h0⟩
    · rw [h]; exact hangle
    · rw [h]; simp only; omega
  rw [GetDrawRotation_eq u, hsum, hloops]

/-- C9 (witness): the value 900 returned for the own angle 2700, taken as the
own angle of a text on a parent of orientation 0. -/
theorem GetDrawRotation_idempotent_witness :
    (900 : Int) = TEXTE_MODULE.GetDrawRotation
        { m_Parent := none, m_Type := .TEXT_is_DIVERS, m_Text := "", m_Pos0 := ⟨0, 0⟩,
          m_Layer := F_SilkS, pos := ⟨0, 0⟩, angle := 2700, mirrored := false } ∧
    TEXTE_MODULE.GetDrawRotation
        { m_Parent := some ⟨⟨0, 0⟩, 0, "R1", "10k"⟩, m_Type := .TEXT_is_DIVERS, m_Text := "",
          m_Pos0 := ⟨0, 0⟩, m_Layer := F_SilkS, pos := ⟨0, 0⟩, angle := 900,
          mirrored := false } =
      TEXTE_MODULE.GetDrawRotation
        { m_Parent := none, m_Type := .TEXT_is_DIVERS, m_Text := "", m_Pos0 := ⟨0, 0⟩,
          m_Layer := F_SilkS, pos := ⟨0, 0⟩, angle := 2700, mirrored := false } :=
  have h : (900 : Int) = TEXTE_MODULE.GetDrawRotation
        { m_Parent := none, m_Type := .TEXT_is_DIVERS, m_Text := "", m_Pos0 := ⟨0, 0⟩,
          m_Layer := F_SilkS, pos := ⟨0, 0⟩, angle := 2700, mirrored := false } := by
    simp [TEXTE_MODULE.GetDrawRotation, TEXTE_MODULE.GetDrawRotation.whileAbove,
      TEXTE_MODULE.GetDrawRotation.whileBelow, TEXTE_MODULE.GetTextAngle]
  ⟨h, (GetDrawRotation_idempotent _
    { m_Parent := some ⟨⟨0, 0⟩, 0, "R1", "10k"⟩, m_Type := .TEXT_is_DIVERS, m_Text := "",
      m_Pos0 := ⟨0, 0⟩, m_Layer := F_SilkS, pos := ⟨0, 0⟩, angle := 900, mirrored := false }
    h (Or.inr ⟨_, rfl, rfl⟩)).1⟩

/-! ## Properties of the shown text -/

/-- A character other than the percent sign is copied. -/
theorem expandPercent_cons_of_ne (module : Option MODULE) {c : Char} (rest : List Char)
    (hc : c ≠ '%') : expandPercent module (c :: rest) = c :: expandPercent module rest := by
  rw [expandPercent.eq_def]
  simp [hc]

/-- The loop of `GetShownText` appends to the buffer the one-pass expansion of
what is left to read. -/
theorem GetShownText_loop_data (module : Option MODULE) (n : Nat) :
    ∀ (it : List Char), it.length ≤ n → ∀ (newbuf : String),
      (TEXTE_MODULE.GetShownText.loop module it newbuf).data =
        newbuf.data ++ expandPercent module it := by
  induction n with
  | zero =>
    intro it h newbuf
    have : it = [] := List.length_eq_zero.mp (by omega)
    subst this
    simp [TEXTE_MODULE.GetShownText.loop, expandPercent]
  | succ n ih =>
    intro it h newbuf
    match it, h with
    | [], _ => simp [TEXTE_MODULE.GetShownText.loop, expandPercent]
    | c :: rest, h =>
      have hrest : rest.length ≤ n := by simpa using h
      by_cases hc : c = '%'
      · subst hc
        match rest, hrest with
        | [], _ => simp [TEXTE_MODULE.GetShownText.loop, expandPercent]
        | d :: rest2, hrest =>
          have hrest2 : rest2.length ≤ n := by
            have : rest2.length + 1 ≤ n := by simpa using hrest
            omega
          by_cases h1 : d = '%'
          · subst h1
            simp [TEXTE_MODULE.GetShownText.loop, expandPercent, expandEscape,
              ih rest2 hrest2]
          · by_cases h2 : d = 'R'
            · subst h2
              cases module <;>
                simp [TEXTE_MODULE.GetShownText.loop, expandPercent, expandEscape,
                  ih rest2 hrest2]
            · by_cases h3 : d = 'V'
              · subst h3
                cases module <;>
                  simp [TEXTE_MODULE.GetShownText.loop, expandPercent, expandEscape,
                    ih rest2 hrest2]
              · simp [TEXTE_MODULE.GetShownText.loop, expandPercent, expandEscape,
                  ih rest2 hrest2, h1, h2, h3]
      · rw [TEXTE_MODULE.GetShownText.loop.eq_def, expandPercent_cons_of_ne module rest hc]
        simp [hc, ih rest hrest]

/-- C4: for a user text (`TEXT_is_DIVERS`) whose raw text contains a percent
sign, `GetShownText` is the one-pass, left to right expansion of the raw
text: other characters are copied, a percent sign takes the next character
and leaves a percent sign for a percent sign, the reference of the parent for
`R`, its value for `V` (nothing without a parent), a question mark for any
other character, and nothing at all when it is the last character; what was
inserted is not expanded again.  With the reference R1 and the value 10k,
the text "%R-%V" gives "R1-10k", "100%% done" gives "100% done" and "abc%"
gives "abc". -/
theorem GetShownText_expands (t : TEXTE_MODULE) (hkind : t.m_Type = .TEXT_is_DIVERS)
    (hpercent : '%' ∈ t.m_Text.toList) :
    t.GetShownText = String.mk (expandPercent t.m_Parent t.m_Text.toList) ∧
    TEXTE_MODULE.GetShownText
        { m_Parent := some ⟨⟨0, 0⟩, 0, "R1", "10k"⟩, m_Type := .TEXT_is_DIVERS,
          m_Text := "%R-%V", m_Pos0 := ⟨0, 0⟩, m_Layer := F_SilkS, pos := ⟨0, 0⟩,
          angle := 0, mirrored := false } = "R1-10k" ∧
    TEXTE_MODULE.GetShownText
        { m_Parent := some ⟨⟨0, 0⟩, 0, "R1", "10k"⟩, m_Type := .TEXT_is_DIVERS,
          m_Text := "100%% done", m_Pos0 := ⟨0, 0⟩, m_Layer := F_SilkS, pos := ⟨0, 0⟩,
          angle := 0, mirrored := false } = "100% done" ∧
    TEXTE_MODULE.GetShownText
        { m_Parent := some ⟨⟨0, 0⟩, 0, "R1", "10k"⟩, m_Type := .TEXT_is_DIVERS,
          m_Text := "abc%", m_Pos0 := ⟨0, 0⟩, m_Layer := F_SilkS, pos := ⟨0, 0⟩,
          angle := 0, mirrored := false } = "abc" := by
  refine ⟨?_, by decide, by decide, by decide⟩
  unfold TEXTE_MODULE.GetShownText
  rw [if_neg (by simp only [hkind]; tauto)]
  apply String.ext
  rw [GetShownText_loop_data t.m_Parent _ _ (le_refl _)]
  simp

/-- C4 (witness): the text "%V: %R%x%" on a footprint whose reference is "%V"
and whose value is "10k": the inserted reference is not expanded again, the
unknown letter gives a question mark and the last percent sign gives
nothing. -/
theorem GetShownText_expands_witness :
    (TEXT_TYPE.TEXT_is_DIVERS = TEXT_TYPE.TEXT_is_DIVERS ∧ '%' ∈ "%V: %R%x%".toList) ∧
    TEXTE_MODULE.GetShownText
        { m_Parent := some ⟨⟨0, 0⟩, 0, "%V", "10k"⟩, m_Type := .TEXT_is_DIVERS,
          m_Text := "%V: %R%x%", m_Pos0 := ⟨0, 0⟩, m_Layer := F_SilkS, pos := ⟨0, 0⟩,
          angle := 0, mirrored := false } =
      String.mk (expandPercent (some ⟨⟨0, 0⟩, 0, "%V", "10k"⟩) "%V: %R%x%".toList) ∧
    String.mk (expandPercent (some ⟨⟨0, 0⟩, 0, "%V", "10k"⟩) "%V: %R%x%".toList) =
      "10k: %V?" :=
  ⟨⟨rfl, by decide⟩,
    (GetShownText_expands
      { m_Parent := some ⟨⟨0, 0⟩, 0, "%V", "10k"⟩, m_Type := .TEXT_is_DIVERS,
        m_Text := "%V: %R%x%", m_Pos0 := ⟨0, 0⟩, m_Layer := F_SilkS, pos := ⟨0, 0⟩,
        angle := 0, mirrored := false } rfl (by decide)).1,
    by decide⟩

/-- C7: the fast path: for a text that is not a user text (a reference or a
value), whatever its raw text, and for a text of any kind whose raw text has
no percent sign, `GetShownText` returns the raw text as it is. -/
theorem GetShownText_fast_path (t : TEXTE_MODULE)
    (h : t.m_Type ≠ .TEXT_is_DIVERS ∨ '%' ∉ t.m_Text.toList) :
    t.GetShownText = t.m_Text := by
  unfold TEXTE_MODULE.GetShownText
  rw [if_pos h]

/-- C7 (witness): a reference text whose raw text holds every escape and ends
with a percent sign is shown as it is. -/
theorem GetShownText_fast_path_witness :
    (TEXT_TYPE.TEXT_is_REFERENCE ≠ TEXT_TYPE.TEXT_is_DIVERS ∨ '%' ∉ "%R %V %% x%".toList) ∧
    TEXTE_MODULE.GetShownText
        { m_Parent := some ⟨⟨0, 0⟩, 0, "R1", "10k"⟩, m_Type := .TEXT_is_REFERENCE,
          m_Text := "%R %V %% x%", m_Pos0 := ⟨0, 0⟩, m_Layer := F_SilkS, pos := ⟨0, 0⟩,
          angle := 0, mirrored := false } = "%R %V %% x%" :=
  ⟨Or.inl (by decide),
    GetShownText_fast_path
      { m_Parent := some ⟨⟨0, 0⟩, 0, "R1", "10k"⟩, m_Type := .TEXT_is_REFERENCE,
        m_Text := "%R %V %% x%", m_Pos0 := ⟨0, 0⟩, m_Layer := F_SilkS, pos := ⟨0, 0⟩,
        angle := 0, mirrored := false } (Or.inl (by decide))⟩

/-! ## Properties of the edits -/

/-- The synchronisation of the local position changes nothing but `m_Pos0`. -/
theorem SetLocalCoord_frame (trig : TrigBranch) (t : TEXTE_MODULE) :
    (t.SetLocalCoord trig).pos = t.pos ∧ (t.SetLocalCoord trig).angle = t.angle ∧
    (t.SetLocalCoord trig).mirrored = t.mirrored ∧
    (t.SetLocalCoord trig).m_Layer = t.m_Layer ∧ (t.SetLocalCoord trig).m_Text = t.m_Text ∧
    (t.SetLocalCoord trig).m_Parent = t.m_Parent ∧ (t.SetLocalCoord trig).m_Type = t.m_Type := by
  unfold TEXTE_MODULE.SetLocalCoord
  cases t.m_Parent <;> simp

/-- The normalisation of `SetTextAngle` removes whole turns and leaves an angle
strictly inside one turn on either side of zero. -/
theorem NormalizeAngle360_spec (a : Int) :
    (∃ k : Int, NormalizeAngle360 a = a + 3600 * k) ∧
    -3600 < NormalizeAngle360 a ∧ NormalizeAngle360 a < 3600 := by
  unfold NormalizeAngle360
  split_ifs with h
  · exact ⟨⟨-(a / 3600), by omega⟩, by omega, by omega⟩
  · exact ⟨⟨(-a) / 3600, by omega⟩, by omega, by omega⟩

/-- Negating, normalizing, negating and normalizing again is normalizing. -/
theorem NormalizeAngle360_neg_neg (a : Int) :
    NormalizeAngle360 (-NormalizeAngle360 (-a)) = NormalizeAngle360 a := by
  unfold NormalizeAngle360
  split_ifs <;> omega

/-- An angle strictly inside one turn on either side of zero is normalized. -/
theorem NormalizeAngle360_of_lt (a : Int) (h1 : -3600 < a) (h2 : a < 3600) :
    NormalizeAngle360 a = a := by
  unfold NormalizeAngle360
  split_ifs <;> omega

/-- Flipping a layer twice gives the layer back. -/
theorem FlipLayer_FlipLayer (l : PCB_LAYER_ID) : FlipLayer (FlipLayer l) = l := by
  cases l <;> rfl

/-- C6: `Mirror` changes only the position coordinate on the chosen axis: the
global y (around the X axis) or the global x (otherwise) becomes twice the
centre minus the old value, the other global coordinate stays, and the own
angle, the mirrored flag, the layer and the text stay. -/
theorem Mirror_changes_one_coordinate (trig : TrigBranch) (t : TEXTE_MODULE)
    (aCentre : wxPoint) (aMirrorAroundXAxis : Bool) :
    (t.Mirror trig aCentre aMirrorAroundXAxis).pos =
      (if aMirrorAroundXAxis then ⟨t.pos.x, 2 * aCentre.y - t.pos.y⟩
        else ⟨2 * aCentre.x - t.pos.x, t.pos.y⟩) ∧
    (t.Mirror trig aCentre aMirrorAroundXAxis).angle = t.angle ∧
    (t.Mirror trig aCentre aMirrorAroundXAxis).mirrored = t.mirrored ∧
    (t.Mirror trig aCentre aMirrorAroundXAxis).m_Layer = t.m_Layer ∧
    (t.Mirror trig aCentre aMirrorAroundXAxis).m_Text = t.m_Text := by
  unfold TEXTE_MODULE.Mirror
  obtain ⟨h1, h2, h3, h4, h5, -, -⟩ := SetLocalCoord_frame trig
    (if aMirrorAroundXAxis then t.SetTextY (TextMod.Mirror t.GetTextPos.y aCentre.y)
      else t.SetTextX (TextMod.Mirror t.GetTextPos.x aCentre.x))
  simp only [h1, h2, h3, h4, h5]
  cases aMirrorAroundXAxis <;>
    simp [TEXTE_MODULE.SetTextX, TEXTE_MODULE.SetTextY, TEXTE_MODULE.GetTextPos, TextMod.Mirror] <;>
    omega

/-- C10: `Rotate` sets the global position to the old one rotated about the
centre by the angle, and the own angle to the old angle plus the angle as
`SetTextAngle` normalizes it, reduced by whole turns: the new own angle
differs from old + a by a multiple of 3600 and lies strictly between -3600
and 3600; the layer, the mirrored flag and the text stay. -/
theorem Rotate_spec (trig : TrigBranch) (t : TEXTE_MODULE) (aRotCentre : wxPoint)
    (aAngle : Int) :
    (t.Rotate trig aRotCentre aAngle).pos = RotatePointAround trig t.pos aRotCentre aAngle ∧
    (t.Rotate trig aRotCentre aAngle).angle = NormalizeAngle360 (t.angle + aAngle) ∧
    (∃ k : Int, (t.Rotate trig aRotCentre aAngle).angle = t.angle + aAngle + 3600 * k) ∧
    -3600 < (t.Rotate trig aRotCentre aAngle).angle ∧
    (t.Rotate trig aRotCentre aAngle).angle < 3600 ∧
    (t.Rotate trig aRotCentre aAngle).m_Layer = t.m_Layer ∧
    (t.Rotate trig aRotCentre aAngle).mirrored = t.mirrored ∧
    (t.Rotate trig aRotCentre aAngle).m_Text = t.m_Text := by
  unfold TEXTE_MODULE.Rotate
  obtain ⟨h1, h2, h3, h4, h5, -, -⟩ := SetLocalCoord_frame trig
    ((t.SetTextPos (RotatePointAround trig t.GetTextPos aRotCentre aAngle)).SetTextAngle
      ((t.SetTextPos (RotatePointAround trig t.GetTextPos aRotCentre aAngle)).GetTextAngle
        + aAngle))
  simp only [h1, h2, h3, h4, h5]
  obtain ⟨hk, hlo, hhi⟩ := NormalizeAngle360_spec (t.angle + aAngle)
  exact ⟨rfl, rfl, hk, hlo, hhi, rfl, rfl, rfl⟩

/-- The state after two flips about the same centre, field by field. -/
theorem Flip_Flip_fields (trig : TrigBranch) (t : TEXTE_MODULE) (aCentre : wxPoint) :
    ((t.Flip trig aCentre).Flip trig aCentre).m_Layer = FlipLayer (FlipLayer t.m_Layer) ∧
    ((t.Flip trig aCentre).Flip trig aCentre).mirrored =
      IsBackLayer (FlipLayer (FlipLayer t.m_Layer)) ∧
    ((t.Flip trig aCentre).Flip trig aCentre).angle =
      NormalizeAngle360 (-NormalizeAngle360 (-t.angle)) := by
  have key : ∀ u : TEXTE_MODULE, (u.Flip trig aCentre).m_Layer = FlipLayer u.m_Layer ∧
      (u.Flip trig aCentre).mirrored = IsBackLayer (FlipLayer u.m_Layer) ∧
      (u.Flip trig aCentre).angle = NormalizeAngle360 (-u.angle) := by
    intro u
    unfold TEXTE_MODULE.Flip
    obtain ⟨-, h2, h3, h4, -, -, -⟩ := SetLocalCoord_frame trig
      ((((u.SetTextY (TextMod.Mirror u.GetTextPos.y aCentre.y)).SetTextAngle
        (-(u.SetTextY (TextMod.Mirror u.GetTextPos.y aCentre.y)).GetTextAngle)).SetLayer
        (FlipLayer ((u.SetTextY (TextMod.Mirror u.GetTextPos.y aCentre.y)).SetTextAngle
          (-(u.SetTextY (TextMod.Mirror u.GetTextPos.y aCentre.y)).GetTextAngle)).GetLayer)).SetMirrored
        (IsBackLayer (((u.SetTextY (TextMod.Mirror u.GetTextPos.y aCentre.y)).SetTextAngle
          (-(u.SetTextY (TextMod.Mirror u.GetTextPos.y aCentre.y)).GetTextAngle)).SetLayer
          (FlipLayer ((u.SetTextY (TextMod.Mirror u.GetTextPos.y aCentre.y)).SetTextAngle
            (-(u.SetTextY (TextMod.Mirror u.GetTextPos.y aCentre.y)).GetTextAngle)).GetLayer)).GetLayer))
    simp only [h2, h3, h4]
    exact ⟨rfl, rfl, rfl⟩
  obtain ⟨a1, a2, a3⟩ := key t
  obtain ⟨b1, b2, b3⟩ := key (t.Flip trig aCentre)
  rw [b1, b2, b3, a1, a3]
  exact ⟨rfl, rfl, rfl⟩

/-- C5 (as amended): two flips about the same centre restore the layer; they
leave the mirrored flag equal to `IsBackLayer` of the layer, so the flag is
restored exactly when it agreed with the side of the layer before; they leave
the own angle as `SetTextAngle` normalizes it, which is the original angle
when that lies strictly between -3600 and 3600. -/
theorem Flip_Flip (trig : TrigBranch) (t : TEXTE_MODULE) (aCentre : wxPoint) :
    ((t.Flip trig aCentre).Flip trig aCentre).m_Layer = t.m_Layer ∧
    ((t.Flip trig aCentre).Flip trig aCentre).mirrored = IsBackLayer t.m_Layer ∧
    (((t.Flip trig aCentre).Flip trig aCentre).mirrored = t.mirrored ↔
      t.mirrored = IsBackLayer t.m_Layer) ∧
    ((t.Flip trig aCentre).Flip trig aCentre).angle = NormalizeAngle360 t.angle ∧
    (-3600 < t.angle ∧ t.angle < 3600 →
      ((t.Flip trig aCentre).Flip trig aCentre).angle = t.angle) := by
  obtain ⟨h1, h2, h3⟩ := Flip_Flip_fields trig t aCentre
  rw [h1, h2, h3, FlipLayer_FlipLayer, NormalizeAngle360_neg_neg]
  exact ⟨rfl, rfl, eq_comm, rfl, fun h => NormalizeAngle360_of_lt _ h.1 h.2⟩

/-- C5 (witness): a mirrored text on the back silkscreen with the own angle -450
has its layer, its mirrored flag and its own angle back after two flips. -/
theorem Flip_Flip_witness :
    (-3600 < (-450 : Int) ∧ (-450 : Int) < 3600) ∧
    (((TEXTE_MODULE.mk none .TEXT_is_VALUE "10k" ⟨3, 4⟩ B_SilkS ⟨3, 4⟩ (-450) true).Flip
      (fun _ _ _ => ⟨0, 0⟩) ⟨0, 10⟩).Flip (fun _ _ _ => ⟨0, 0⟩) ⟨0, 10⟩).angle = -450 ∧
    (((TEXTE_MODULE.mk none .TEXT_is_VALUE "10k" ⟨3, 4⟩ B_SilkS ⟨3, 4⟩ (-450) true).Flip
      (fun _ _ _ => ⟨0, 0⟩) ⟨0, 10⟩).Flip (fun _ _ _ => ⟨0, 0⟩) ⟨0, 10⟩).mirrored = true ∧
    (((TEXTE_MODULE.mk none .TEXT_is_VALUE "10k" ⟨3, 4⟩ B_SilkS ⟨3, 4⟩ (-450) true).Flip
      (fun _ _ _ => ⟨0, 0⟩) ⟨0, 10⟩).Flip (fun _ _ _ => ⟨0, 0⟩) ⟨0, 10⟩).m_Layer = B_SilkS :=
  ⟨by decide,
    (Flip_Flip (fun _ _ _ => ⟨0, 0⟩)
      (TEXTE_MODULE.mk none .TEXT_is_VALUE "10k" ⟨3, 4⟩ B_SilkS ⟨3, 4⟩ (-450) true)
      ⟨0, 10⟩).2.2.2.2 (by decide),
    (Flip_Flip (fun _ _ _ => ⟨0, 0⟩)
      (TEXTE_MODULE.mk none .TEXT_is_VALUE "10k" ⟨3, 4⟩ B_SilkS ⟨3, 4⟩ (-450) true)
      ⟨0, 10⟩).2.1,
    (Flip_Flip (fun _ _ _ => ⟨0, 0⟩)
      (TEXTE_MODULE.mk none .TEXT_is_VALUE "10k" ⟨3, 4⟩ B_SilkS ⟨3, 4⟩ (-450) true)
      ⟨0, 10⟩).1⟩

/-- C5 (counterexample): a text on the front silkscreen whose mirrored flag is
set comes back from two flips with the flag cleared; and an own angle of
5000, outside the range that `SetTextAngle` stores, comes back as 1400. -/
theorem Flip_Flip_counterexample :
    (((TEXTE_MODULE.mk none .TEXT_is_DIVERS "abc" ⟨3, 4⟩ F_SilkS ⟨3, 4⟩ 0 true).Flip
      (fun _ _ _ => ⟨0, 0⟩) ⟨0, 10⟩).Flip (fun _ _ _ => ⟨0, 0⟩) ⟨0, 10⟩).mirrored = false ∧
    (((TEXTE_MODULE.mk none .TEXT_is_DIVERS "abc" ⟨3, 4⟩ F_SilkS ⟨3, 4⟩ 0 true).Flip
      (fun _ _ _ => ⟨0, 0⟩) ⟨0, 10⟩).Flip (fun _ _ _ => ⟨0, 0⟩) ⟨0, 10⟩).mirrored ≠
      (TEXTE_MODULE.mk none .TEXT_is_DIVERS "abc" ⟨3, 4⟩ F_SilkS ⟨3, 4⟩ 0 true).mirrored ∧
    (((TEXTE_MODULE.mk none .TEXT_is_DIVERS "abc" ⟨3, 4⟩ F_SilkS ⟨3, 4⟩ 5000 false).Flip
      (fun _ _ _ => ⟨0, 0⟩) ⟨0, 10⟩).Flip (fun _ _ _ => ⟨0, 0⟩) ⟨0, 10⟩).angle = 1400 ∧
    (((TEXTE_MODULE.mk none .TEXT_is_DIVERS "abc" ⟨3, 4⟩ F_SilkS ⟨3, 4⟩ 5000 false).Flip
      (fun _ _ _ => ⟨0, 0⟩) ⟨0, 10⟩).Flip (fun _ _ _ => ⟨0, 0⟩) ⟨0, 10⟩).angle ≠
      (TEXTE_MODULE.mk none .TEXT_is_DIVERS "abc" ⟨3, 4⟩ F_SilkS ⟨3, 4⟩ 5000 false).angle := by
  decide

/-! ## Properties of the coordinate synchronisation -/

/-- The sine of an angle in tenths of a degree is that of the angle brought
into one turn. -/
theorem sin_normalized (θ : Int) :
    Real.sin (((θ % 3600 : Int) : ℝ) * Real.pi / 1800) = Real.sin ((θ : ℝ) * Real.pi / 1800) := by
  have h : ((θ % 3600 : Int) : ℝ) = (θ : ℝ) - 3600 * ((θ / 3600 : Int) : ℝ) := by
    have := Int.emod_add_ediv θ 3600
    have h2 : ((θ % 3600 + 3600 * (θ / 3600) : Int) : ℝ) = (θ : ℝ) := by rw [this]
    push_cast at h2
    linarith
  rw [h]
  have h3 : ((θ : ℝ) - 3600 * ((θ / 3600 : Int) : ℝ)) * Real.pi / 1800 =
      (θ : ℝ) * Real.pi / 1800 - ((θ / 3600 : Int) : ℝ) * (2 * Real.pi) := by ring
  rw [h3, Real.sin_sub_int_mul_two_pi]

/-- The cosine of an angle in tenths of a degree is that of the angle brought
into one turn. -/
theorem cos_normalized (θ : Int) :
    Real.cos (((θ % 3600 : Int) : ℝ) * Real.pi / 1800) = Real.cos ((θ : ℝ) * Real.pi / 1800) := by
  have h : ((θ % 3600 : Int) : ℝ) = (θ : ℝ) - 3600 * ((θ / 3600 : Int) : ℝ) := by
    have := Int.emod_add_ediv θ 3600
    have h2 : ((θ % 3600 + 3600 * (θ / 3600) : Int) : ℝ) = (θ : ℝ) := by rw [this]
    push_cast at h2
    linarith
  rw [h]
  have h3 : ((θ : ℝ) - 3600 * ((θ / 3600 : Int) : ℝ)) * Real.pi / 1800 =
      (θ : ℝ) * Real.pi / 1800 - ((θ / 3600 : Int) : ℝ) * (2 * Real.pi) := by ring
  rw [h3, Real.cos_sub_int_mul_two_pi]

/-- The error that a rotation by the opposite angle makes of two errors of at
most 9/16 is at most 4/5. -/
theorem rot_err_bound (S C α β : ℝ) (hsc : S ^ 2 + C ^ 2 = 1) (hα : |α| ≤ 9 / 16)
    (hβ : |β| ≤ 9 / 16) : |C * α - S * β| ≤ 4 / 5 ∧ |C * β + S * α| ≤ 4 / 5 := by
  rw [abs_le] at hα hβ
  have hα2 : α ^ 2 ≤ 81 / 256 := by nlinarith [hα.1, hα.2]
  have hβ2 : β ^ 2 ≤ 81 / 256 := by nlinarith [hβ.1, hβ.2]
  have hw : (C * α - S * β) ^ 2 + (C * β + S * α) ^ 2 = α ^ 2 + β ^ 2 := by
    linear_combination (α ^ 2 + β ^ 2) * hsc
  have hw1 : (C * α - S * β) ^ 2 ≤ (4 / 5) ^ 2 := by
    nlinarith [sq_nonneg (C * β + S * α)]
  have hw2 : (C * β + S * α) ^ 2 ≤ (4 / 5) ^ 2 := by
    nlinarith [sq_nonneg (C * α - S * β)]
  exact ⟨abs_le_of_sq_le_sq hw1 (by norm_num), abs_le_of_sq_le_sq hw2 (by norm_num)⟩

/-- Two accurate rounded rotations, by an angle and by its opposite, bring an
integer point back within one unit on each coordinate. -/
theorem round_trip_real (S C : ℝ) (hsc : S ^ 2 + C ^ 2 = 1) (x y qx qy rx ry : Int)
    (h1 : |(qx : ℝ) - (y * S + x * C)| ≤ 9 / 16)
    (h2 : |(qy : ℝ) - (y * C - x * S)| ≤ 9 / 16)
    (h3 : |(rx : ℝ) - (qy * (-S) + qx * C)| ≤ 9 / 16)
    (h4 : |(ry : ℝ) - (qy * C - qx * (-S))| ≤ 9 / 16) :
    |rx - x| ≤ 1 ∧ |ry - y| ≤ 1 := by
  obtain ⟨hb1, hb2⟩ := rot_err_bound S C _ _ hsc h1 h2
  have e1 : (qy : ℝ) * (-S) + qx * C =
      x + (C * ((qx : ℝ) - (y * S + x * C)) - S * ((qy : ℝ) - (y * C - x * S))) := by
    linear_combination (x : ℝ) * hsc
  have e2 : (qy : ℝ) * C - qx * (-S) =
      y + (C * ((qy : ℝ) - (y * C - x * S)) + S * ((qx : ℝ) - (y * S + x * C))) := by
    linear_combination (y : ℝ) * hsc
  rw [e1] at h3
  rw [e2] at h4
  rw [abs_le] at h3 h4 hb1 hb2
  constructor
  · have hlo : (-2 : ℝ) < ((rx - x : Int) : ℝ) := by push_cast; linarith [h3.1, hb1.1]
    have hhi : ((rx - x : Int) : ℝ) < 2 := by push_cast; linarith [h3.2, hb1.2]
    have hlo2 : (-2 : Int) < rx - x := by exact_mod_cast hlo
    have hhi2 : rx - x < (2 : Int) := by exact_mod_cast hhi
    rw [abs_le]; omega
  · have hlo : (-2 : ℝ) < ((ry - y : Int) : ℝ) := by push_cast; linarith [h4.1, hb2.1]
    have hhi : ((ry - y : Int) : ℝ) < 2 := by push_cast; linarith [h4.2, hb2.2]
    have hlo2 : (-2 : Int) < ry - y := by exact_mod_cast hlo
    have hhi2 : ry - y < (2 : Int) := by exact_mod_cast hhi
    rw [abs_le]; omega

/-- By quarter turns, the rotation by the opposite angle undoes the rotation. -/
theorem RotatePoint_neg_exact (trig : TrigBranch) (p : wxPoint) (θ : Int)
    (h : θ % 900 = 0) : RotatePoint trig (RotatePoint trig p θ) (-θ) = p := by
  have h4 : (θ % 3600 = 0 ∧ (-θ) % 3600 = 0) ∨ (θ % 3600 = 900 ∧ (-θ) % 3600 = 2700) ∨
      (θ % 3600 = 1800 ∧ (-θ) % 3600 = 1800) ∨ (θ % 3600 = 2700 ∧ (-θ) % 3600 = 900) := by
    omega
  rcases h4 with ⟨a, b⟩ | ⟨a, b⟩ | ⟨a, b⟩ | ⟨a, b⟩ <;>
    simp [RotatePoint, NORMALIZE_ANGLE_POS, a, b]

/-- With an accurate floating-point branch, the rotation by the opposite angle
brings the rotated point back within one unit on each coordinate. -/
theorem RotatePoint_neg_near (trig : TrigBranch) (hacc : TrigAccurate trig) (p : wxPoint)
    (θ : Int) :
    |(RotatePoint trig (RotatePoint trig p θ) (-θ)).x - p.x| ≤ 1 ∧
    |(RotatePoint trig (RotatePoint trig p θ) (-θ)).y - p.y| ≤ 1 := by
  by_cases h : θ % 900 = 0
  · rw [RotatePoint_neg_exact trig p θ h]
    simp
  · have a0 : ¬ θ % 3600 = 0 := by omega
    have a1 : ¬ θ % 3600 = 900 := by omega
    have a2 : ¬ θ % 3600 = 1800 := by omega
    have a3 : ¬ θ % 3600 = 2700 := by omega
    have b0 : ¬ (-θ) % 3600 = 0 := by omega
    have b1 : ¬ (-θ) % 3600 = 900 := by omega
    have b2 : ¬ (-θ) % 3600 = 1800 := by omega
    have b3 : ¬ (-θ) % 3600 = 2700 := by omega
    have e1 : RotatePoint trig p θ = trig p.x p.y (θ % 3600) := by
      simp [RotatePoint, NORMALIZE_ANGLE_POS, a0, a1, a2, a3]
    have e2 : ∀ q : wxPoint, RotatePoint trig q (-θ) = trig q.x q.y ((-θ) % 3600) := by
      intro q
      simp [RotatePoint, NORMALIZE_ANGLE_POS, b0, b1, b2, b3]
    rw [e2, e1]
    obtain ⟨h1, h2⟩ := hacc p.x p.y (θ % 3600)
    obtain ⟨h3, h4⟩ := hacc (trig p.x p.y (θ % 3600)).x (trig p.x p.y (θ % 3600)).y
      ((-θ) % 3600)
    rw [sin_normalized, cos_normalized] at h1 h2 h3 h4
    have hneg : (((-θ : Int)) : ℝ) * Real.pi / 1800 = -((θ : ℝ) * Real.pi / 1800) := by
      push_cast; ring
    rw [hneg, Real.sin_neg, Real.cos_neg] at h3 h4
    exact round_trip_real (Real.sin ((θ : ℝ) * Real.pi / 1800))
      (Real.cos ((θ : ℝ) * Real.pi / 1800)) (Real.sin_sq_add_cos_sq _) p.x p.y _ _ _ _
      h1 h2 h3 h4

/-- Adding the position of the parent and taking it away again is exact. -/
theorem wxPoint.add_sub_cancel (a b : wxPoint) : (a.add b).sub b = a := by
  cases a; cases b
  simp [wxPoint.add, wxPoint.sub]

/-- The local position after `SetDrawCoord` then `SetLocalCoord`, with a
parent: the position of the parent cancels, two rotations remain. -/
theorem SetLocalCoord_SetDrawCoord_pos0 (trig : TrigBranch) (t : TEXTE_MODULE)
    (module : MODULE) (hparent : t.m_Parent = some module) :
    ((t.SetDrawCoord trig).SetLocalCoord trig).m_Pos0 =
      RotatePoint trig (RotatePoint trig t.m_Pos0 module.m_Orient) (-module.m_Orient) := by
  unfold TEXTE_MODULE.SetLocalCoord TEXTE_MODULE.SetDrawCoord
  simp [hparent, TEXTE_MODULE.SetTextPos, TEXTE_MODULE.Offset, TEXTE_MODULE.GetTextPos,
    wxPoint.add_sub_cancel]

/-- Taking the position of the parent away and adding it again is exact. -/
theorem wxPoint.sub_add_cancel (a b : wxPoint) : (a.sub b).add b = a := by
  cases a; cases b
  simp [wxPoint.add, wxPoint.sub]

/-- What `SetLocalCoord` leaves, whatever the state it starts from. -/
theorem SetLocalCoord_resynced (trig : TrigBranch) (w : TEXTE_MODULE) :
    Resynced trig (w.SetLocalCoord trig) := by
  unfold Resynced LocalSynced Consistent NearlyConsistent TEXTE_MODULE.SetLocalCoord
  cases hp : w.m_Parent with
  | none => simp [TEXTE_MODULE.GetTextPos]
  | some module =>
    simp only [TEXTE_MODULE.GetTextPos, true_and]
    constructor
    · intro hq
      have h900 : (-module.m_Orient) % 900 = 0 := by
        have := hq module rfl
        omega
      have := RotatePoint_neg_exact trig (w.pos.sub module.m_Pos) (-module.m_Orient) h900
      rw [neg_neg] at this
      rw [this, wxPoint.sub_add_cancel]
    · intro hacc
      have := RotatePoint_neg_near trig hacc (w.pos.sub module.m_Pos) (-module.m_Orient)
      rw [neg_neg] at this
      obtain ⟨hx, hy⟩ := this
      simp only [wxPoint.add, wxPoint.sub] at hx hy ⊢
      rw [abs_le] at hx hy ⊢
      rw [abs_le]
      constructor <;> constructor <;> omega

/-- C1: with a parent footprint at any position and of any orientation, and from
any local position, `SetDrawCoord` followed by `SetLocalCoord` leaves `m_Pos0`
within the rounding of the two rotations, one unit at most on each coordinate
when the floating-point branch of `RotatePoint` is accurate; the local
position is restored exactly when the orientation is a multiple of 90
degrees, where the rotation is exact. -/
theorem SetDrawCoord_SetLocalCoord_round_trip (trig : TrigBranch) (t : TEXTE_MODULE)
    (module : MODULE) (hparent : t.m_Parent = some module) :
    (TrigAccurate trig →
      |((t.SetDrawCoord trig).SetLocalCoord trig).m_Pos0.x - t.m_Pos0.x| ≤ 1 ∧
      |((t.SetDrawCoord trig).SetLocalCoord trig).m_Pos0.y - t.m_Pos0.y| ≤ 1) ∧
    (module.m_Orient % 900 = 0 →
      ((t.SetDrawCoord trig).SetLocalCoord trig).m_Pos0 = t.m_Pos0) := by
  rw [SetLocalCoord_SetDrawCoord_pos0 trig t module hparent]
  exact ⟨fun hacc => RotatePoint_neg_near trig hacc _ _,
    fun h => RotatePoint_neg_exact trig _ _ h⟩

/-- The exact rotation rounded to the nearest integers is an accurate
floating-point branch. -/
theorem round_TrigAccurate :
    TrigAccurate (fun x y a =>
      ⟨round ((y : ℝ) * Real.sin (a * Real.pi / 1800) + x * Real.cos (a * Real.pi / 1800)),
       round ((y : ℝ) * Real.cos (a * Real.pi / 1800) - x * Real.sin (a * Real.pi / 1800))⟩) := by
  intro x y a
  constructor
  · rw [abs_sub_comm]
    exact le_trans (abs_sub_round _) (by norm_num)
  · rw [abs_sub_comm]
    exact le_trans (abs_sub_round _) (by norm_num)

/-- C1 (witness): the local position (2, 0) on a footprint at (100, -50) turned
by 45 degrees, with the exact rotation rounded to the nearest integers as the
floating-point branch, comes back within one unit; the local position (7, -3)
on the same footprint turned by 270 degrees comes back as it is. -/
theorem SetDrawCoord_SetLocalCoord_round_trip_witness :
    let trig : TrigBranch := fun x y a =>
      ⟨round ((y : ℝ) * Real.sin (a * Real.pi / 1800) + x * Real.cos (a * Real.pi / 1800)),
       round ((y : ℝ) * Real.cos (a * Real.pi / 1800) - x * Real.sin (a * Real.pi / 1800))⟩
    TrigAccurate trig ∧
    (|(((TEXTE_MODULE.mk (some ⟨⟨100, -50⟩, 450, "R1", "10k"⟩) .TEXT_is_VALUE "10k" ⟨2, 0⟩
        F_SilkS ⟨0, 0⟩ 0 false).SetDrawCoord trig).SetLocalCoord trig).m_Pos0.x - 2| ≤ 1 ∧
      |(((TEXTE_MODULE.mk (some ⟨⟨100, -50⟩, 450, "R1", "10k"⟩) .TEXT_is_VALUE "10k" ⟨2, 0⟩
        F_SilkS ⟨0, 0⟩ 0 false).SetDrawCoord trig).SetLocalCoord trig).m_Pos0.y - 0| ≤ 1) ∧
    (2700 : Int) % 900 = 0 ∧
    (((TEXTE_MODULE.mk (some ⟨⟨100, -50⟩, 2700, "R1", "10k"⟩) .TEXT_is_VALUE "10k" ⟨7, -3⟩
        F_SilkS ⟨0, 0⟩ 0 false).SetDrawCoord trig).SetLocalCoord trig).m_Pos0 = ⟨7, -3⟩ := by
  intro trig
  exact ⟨round_TrigAccurate,
    (SetDrawCoord_SetLocalCoord_round_trip trig
      (TEXTE_MODULE.mk (some ⟨⟨100, -50⟩, 450, "R1", "10k"⟩) .TEXT_is_VALUE "10k" ⟨2, 0⟩
        F_SilkS ⟨0, 0⟩ 0 false) ⟨⟨100, -50⟩, 450, "R1", "10k"⟩ rfl).1 round_TrigAccurate,
    by decide,
    (SetDrawCoord_SetLocalCoord_round_trip trig
      (TEXTE_MODULE.mk (some ⟨⟨100, -50⟩, 2700, "R1", "10k"⟩) .TEXT_is_VALUE "10k" ⟨7, -3⟩
        F_SilkS ⟨0, 0⟩ 0 false) ⟨⟨100, -50⟩, 2700, "R1", "10k"⟩ rfl).2 (by decide)⟩

/-- C2 (as amended): each of `Move`, `Rotate`, `Mirror` and `Flip`, applied to
any text in any state, ends by recomputing the local position from the
global one: `m_Pos0` is the offset from the parent rotated by the opposite of
its orientation, or the global position without a parent.  The global
position is then the rotated local position plus the position of the parent
exactly when there is no parent or the parent is turned by a multiple of 90
degrees, and up to one unit on each coordinate otherwise, when the
floating-point branch of the rotation is accurate. -/
theorem edits_resync (trig : TrigBranch) (t : TEXTE_MODULE)
    (aMoveVector aRotCentre aCentre : wxPoint) (aAngle : Int) (aMirrorAroundXAxis : Bool) :
    Resynced trig (t.Move trig aMoveVector) ∧
    Resynced trig (t.Rotate trig aRotCentre aAngle) ∧
    Resynced trig (t.Mirror trig aCentre aMirrorAroundXAxis) ∧
    Resynced trig (t.Flip trig aCentre) :=
  ⟨SetLocalCoord_resynced trig _, SetLocalCoord_resynced trig _,
    SetLocalCoord_resynced trig _, SetLocalCoord_resynced trig _⟩

/-- C2 (witness): a text on a footprint turned by 90 degrees is consistent after
a move, and a text without a parent is consistent after a flip. -/
theorem edits_resync_witness :
    Consistent trigSample45
      ((TEXTE_MODULE.mk (some ⟨⟨100, -50⟩, 900, "R1", "10k"⟩) .TEXT_is_VALUE "10k" ⟨0, 0⟩
        F_SilkS ⟨3, 4⟩ 0 false).Move trigSample45 ⟨5, 6⟩) ∧
    Consistent trigSample45
      ((TEXTE_MODULE.mk none .TEXT_is_VALUE "10k" ⟨0, 0⟩
        F_SilkS ⟨3, 4⟩ 0 false).Flip trigSample45 ⟨5, 6⟩) :=
  ⟨(edits_resync trigSample45
      (TEXTE_MODULE.mk (some ⟨⟨100, -50⟩, 900, "R1", "10k"⟩) .TEXT_is_VALUE "10k" ⟨0, 0⟩
        F_SilkS ⟨3, 4⟩ 0 false) ⟨5, 6⟩ ⟨0, 0⟩ ⟨0, 0⟩ 0 false).1.2.1
      (fun m hm => by
        have h : m = ⟨⟨100, -50⟩, 900, "R1", "10k"⟩ := (Option.some.inj hm).symm
        rw [h]; decide),
    (edits_resync trigSample45
      (TEXTE_MODULE.mk none .TEXT_is_VALUE "10k" ⟨0, 0⟩
        F_SilkS ⟨3, 4⟩ 0 false) ⟨0, 0⟩ ⟨0, 0⟩ ⟨5, 6⟩ 0 false).2.2.2.2.1
      (fun m hm => by
        have hnone : (TEXTE_MODULE.Flip trigSample45
          (TEXTE_MODULE.mk none .TEXT_is_VALUE "10k" ⟨0, 0⟩ F_SilkS ⟨3, 4⟩ 0 false)
          ⟨5, 6⟩).m_Parent = none := by decide
        rw [hnone] at hm
        exact absurd hm (by simp))⟩

/-- Every accurate floating-point branch returns what the sample returns at the
two rotations of the example. -/
theorem TrigAccurate_at_45 (trig : TrigBranch) (hacc : TrigAccurate trig) :
    trig 2 0 3150 = ⟨1, 1⟩ ∧ trig 1 1 450 = ⟨1, 0⟩ := by
  have hs2 : Real.sqrt 2 ^ 2 = 2 := Real.sq_sqrt (by norm_num)
  have hs0 : 0 ≤ Real.sqrt 2 := Real.sqrt_nonneg 2
  have hlo : (7 / 5 : ℝ) < Real.sqrt 2 := by nlinarith
  have hhi : Real.sqrt 2 < (23 / 16 : ℝ) := by nlinarith
  have e450 : ((450 : Int) : ℝ) * Real.pi / 1800 = Real.pi / 4 := by push_cast; ring
  have e3150 : ((3150 : Int) : ℝ) * Real.pi / 1800 = 2 * Real.pi - Real.pi / 4 := by
    push_cast; ring
  obtain ⟨h1, h2⟩ := hacc 2 0 3150
  obtain ⟨h3, h4⟩ := hacc 1 1 450
  rw [e3150, Real.sin_two_pi_sub, Real.cos_two_pi_sub, Real.sin_pi_div_four,
    Real.cos_pi_div_four] at h1 h2
  rw [e450, Real.sin_pi_div_four, Real.cos_pi_div_four] at h3 h4
  push_cast at h1 h2 h3 h4
  rw [abs_le] at h1 h2 h3 h4
  have a1 : (0 : ℝ) < ((trig 2 0 3150).x : ℝ) ∧ ((trig 2 0 3150).x : ℝ) < 2 := by
    constructor <;> linarith [h1.1, h1.2]
  have a2 : (0 : ℝ) < ((trig 2 0 3150).y : ℝ) ∧ ((trig 2 0 3150).y : ℝ) < 2 := by
    constructor <;> linarith [h2.1, h2.2]
  have a3 : (0 : ℝ) < ((trig 1 1 450).x : ℝ) ∧ ((trig 1 1 450).x : ℝ) < 2 := by
    constructor <;> linarith [h3.1, h3.2]
  have a4 : (-1 : ℝ) < ((trig 1 1 450).y : ℝ) ∧ ((trig 1 1 450).y : ℝ) < 1 := by
    constructor <;> linarith [h4.1, h4.2]
  have b1 : (0 : Int) < (trig 2 0 3150).x ∧ (trig 2 0 3150).x < 2 :=
    ⟨by exact_mod_cast a1.1, by exact_mod_cast a1.2⟩
  have b2 : (0 : Int) < (trig 2 0 3150).y ∧ (trig 2 0 3150).y < 2 :=
    ⟨by exact_mod_cast a2.1, by exact_mod_cast a2.2⟩
  have b3 : (0 : Int) < (trig 1 1 450).x ∧ (trig 1 1 450).x < 2 :=
    ⟨by exact_mod_cast a3.1, by exact_mod_cast a3.2⟩
  have b4 : (-1 : Int) < (trig 1 1 450).y ∧ (trig 1 1 450).y < 1 :=
    ⟨by exact_mod_cast a4.1, by exact_mod_cast a4.2⟩
  constructor
  · cases hq : trig 2 0 3150 with
    | mk qx qy =>
      rw [hq] at b1 b2
      simp only at b1 b2
      congr 1 <;> omega
  · cases hq : trig 1 1 450 with
    | mk qx qy =>
      rw [hq] at b3 b4
      simp only at b3 b4
      congr 1 <;> omega

/-- The example of the move with any accurate floating-point branch in the place
of the sample: the two positions are not consistent after the move. -/
theorem Move_inconsistent_of_TrigAccurate (trig : TrigBranch) (hacc : TrigAccurate trig) :
    ¬ Consistent trig
      ((TEXTE_MODULE.mk (some ⟨⟨0, 0⟩, 450, "R1", "10k"⟩) .TEXT_is_VALUE "10k" ⟨1, 1⟩
        F_SilkS ⟨1, 0⟩ 0 false).Move trig ⟨1, 0⟩) := by
  obtain ⟨h1, h2⟩ := TrigAccurate_at_45 trig hacc
  simp [Consistent, TEXTE_MODULE.Move, TEXTE_MODULE.SetLocalCoord, TEXTE_MODULE.Offset,
    TEXTE_MODULE.GetTextPos, RotatePoint, NORMALIZE_ANGLE_POS, wxPoint.add, wxPoint.sub,
    h1, h2]

/-- C2 (counterexample): on a footprint at the origin turned by 45 degrees, the
text at the local position (1, 1) and the global position (1, 0) is
consistent; moved by (1, 0) it has the global position (2, 0) and again the
local position (1, 1), whose rotation is (1, 0): the two positions are no
longer consistent.  The floating-point branch is the sample here; no accurate
floating-point branch makes the consistency hold after every move. -/
theorem Move_consistency_counterexample :
    Consistent trigSample45
      (TEXTE_MODULE.mk (some ⟨⟨0, 0⟩, 450, "R1", "10k"⟩) .TEXT_is_VALUE "10k" ⟨1, 1⟩
        F_SilkS ⟨1, 0⟩ 0 false) ∧
    ((TEXTE_MODULE.mk (some ⟨⟨0, 0⟩, 450, "R1", "10k"⟩) .TEXT_is_VALUE "10k" ⟨1, 1⟩
        F_SilkS ⟨1, 0⟩ 0 false).Move trigSample45 ⟨1, 0⟩).pos = ⟨2, 0⟩ ∧
    ((TEXTE_MODULE.mk (some ⟨⟨0, 0⟩, 450, "R1", "10k"⟩) .TEXT_is_VALUE "10k" ⟨1, 1⟩
        F_SilkS ⟨1, 0⟩ 0 false).Move trigSample45 ⟨1, 0⟩).m_Pos0 = ⟨1, 1⟩ ∧
    RotatePoint trigSample45 ⟨1, 1⟩ 450 = ⟨1, 0⟩ ∧
    ¬ Consistent trigSample45
      ((TEXTE_MODULE.mk (some ⟨⟨0, 0⟩, 450, "R1", "10k"⟩) .TEXT_is_VALUE "10k" ⟨1, 1⟩
        F_SilkS ⟨1, 0⟩ 0 false).Move trigSample45 ⟨1, 0⟩) ∧
    ¬ (∀ trig : TrigBranch, TrigAccurate trig →
        ∀ (t : TEXTE_MODULE) (v : wxPoint), Consistent trig (t.Move trig v)) :=
  ⟨by decide, by decide, by decide, by decide, by decide,
    fun h => Move_inconsistent_of_TrigAccurate _ round_TrigAccurate
      (h _ round_TrigAccurate _ _)⟩

end TextMod
